import Mathlib

/-!
Verification of the core event-driven trading runtime
(`src/core/constant.py`, `src/core/event.py`, `src/core/objects.py`,
`src/core/gateway.py`, `src/core/oms.py`, `src/core/strategy.py`,
`src/gateways/paper_gateway.py`, `src/strategies/llm_crypto_strategy.py`).

The Python code is shallowly embedded as follows:
* Python `float` values become exact rationals `ℚ` (the arithmetic of the
  ledger and the position accounting is modelled exactly).
* `defaultdict(float)` maps become total functions `String → ℚ` updated with
  `Function.update`; plain dicts used with `.get` become `String → Option _`.
* Mutable objects become explicit state records threaded through functions.
* Callback publications (`on_order`, `on_trade`, `on_account`, `put`) become
  event lists returned alongside the new state, in publication order.
* `datetime` fields and the random uuid trade ids carry no information used by
  the code under verification and are dropped resp. replaced by `""`.
-/

namespace Trading

/-- Enum `Direction` from `src/core/constant.py`. -/
inductive Direction where
  | LONG
  | SHORT
deriving DecidableEq

/-- `Direction.value` strings as used in composite ids (`"long"`, `"short"`). -/
def Direction.value : Direction → String
  | .LONG => "long"
  | .SHORT => "short"

/-- Enum `Action` from `src/core/constant.py`. -/
inductive Action where
  | OPEN
  | CLOSE
deriving DecidableEq

/-- Enum `OrderType` from `src/core/constant.py`. -/
inductive OrderType where
  | LIMIT
  | MARKET
deriving DecidableEq

/-- Enum `Status` from `src/core/constant.py`. -/
inductive Status where
  | SUBMITTING
  | NOTTRADED
  | PARTTRADED
  | ALLTRADED
  | CANCELLED
  | REJECTED
deriving DecidableEq

/-- `ACTIVE_STATUSES` from `src/core/objects.py`. -/
def ACTIVE_STATUSES : List Status :=
  [Status.SUBMITTING, Status.NOTTRADED, Status.PARTTRADED]

/-- `OrderData` from `src/core/objects.py` (datetime field dropped). -/
structure OrderData where
  symbol : String
  orderid : String
  direction : Direction
  action : Action
  order_type : OrderType
  price : ℚ
  volume : ℚ
  traded : ℚ := 0
  status : Status := Status.SUBMITTING
deriving DecidableEq

/-- Derived composite id `f"{symbol}.{orderid}"` set in `__post_init__`. -/
def OrderData.vt_orderid (o : OrderData) : String :=
  o.symbol ++ "." ++ o.orderid

/-- `OrderData.is_active`: status in `ACTIVE_STATUSES`. -/
def OrderData.is_active (o : OrderData) : Bool :=
  decide (o.status ∈ ACTIVE_STATUSES)

/-- `TradeData` from `src/core/objects.py` (datetime dropped). -/
structure TradeData where
  symbol : String
  orderid : String
  tradeid : String
  direction : Direction
  price : ℚ
  volume : ℚ
deriving DecidableEq

/-- Derived composite id `f"{symbol}.{tradeid}"` set in `__post_init__`. -/
def TradeData.vt_tradeid (t : TradeData) : String :=
  t.symbol ++ "." ++ t.tradeid

/-- `TickData` from `src/core/objects.py` (datetime dropped). -/
structure TickData where
  symbol : String
  last_price : ℚ
  bid_price : ℚ
  ask_price : ℚ
  bid_volume : ℚ
  ask_volume : ℚ
  volume : ℚ
deriving DecidableEq

/-- `PositionData` from `src/core/objects.py`. -/
structure PositionData where
  symbol : String
  direction : Direction
  volume : ℚ := 0
  frozen : ℚ := 0
  avg_price : ℚ := 0
  pnl : ℚ := 0
deriving DecidableEq

/-- `AccountData` from `src/core/objects.py` (`available` is derived). -/
structure AccountData where
  accountid : String
  balance : ℚ := 0
  frozen : ℚ := 0
deriving DecidableEq

/-- `OrderRequest` from `src/core/objects.py`. -/
structure OrderRequest where
  symbol : String
  direction : Direction
  action : Action
  order_type : OrderType
  volume : ℚ
  price : ℚ := 0
  reference : String := ""
deriving DecidableEq

/-- `OrderRequest.create_order_data` from `src/core/objects.py`. -/
def OrderRequest.create_order_data (req : OrderRequest) (orderid : String) :
    OrderData :=
  { symbol := req.symbol
    orderid := orderid
    direction := req.direction
    action := req.action
    order_type := req.order_type
    price := req.price
    volume := req.volume
    traded := 0
    status := Status.SUBMITTING }

/-- `CancelRequest` from `src/core/objects.py`. -/
structure CancelRequest where
  symbol : String
  orderid : String
deriving DecidableEq

/-- `OrderData.create_cancel_request` from `src/core/objects.py`. -/
def OrderData.create_cancel_request (o : OrderData) : CancelRequest :=
  { symbol := o.symbol, orderid := o.orderid }

/-!  ## Event bus types and `BaseGateway` callbacks (`src/core/event.py`,
     `src/core/gateway.py`)  -/

def EVENT_TICK : String := "eTick"
def EVENT_BAR : String := "eBar"
def EVENT_ORDER : String := "eOrder"
def EVENT_TRADE : String := "eTrade"
def EVENT_POSITION : String := "ePosition"
def EVENT_ACCOUNT : String := "eAccount"

/-- `BarData` from `src/core/objects.py` (datetime dropped). -/
structure BarData where
  symbol : String
  open_ : ℚ
  high : ℚ
  low : ℚ
  close : ℚ
  volume : ℚ
deriving DecidableEq

/-- Payload of a bus event put by a gateway callback. -/
inductive Payload where
  | tick (t : TickData)
  | order (o : OrderData)
  | trade (t : TradeData)
  | position (p : PositionData)
  | account (a : AccountData)
deriving DecidableEq

/-- The `Event` envelope from `src/core/event.py`: a type string and a data
payload. -/
structure BusEvent where
  type : String
  data : Payload
deriving DecidableEq

namespace BaseGateway

/-- `dataclasses.replace(order)` in `BaseGateway.on_order`: a field-for-field
copy of the dataclass.  Under value semantics the copy is the value itself. -/
def snapshot (o : OrderData) : OrderData := o

/-- `BaseGateway.on_tick`: the list of events put into the engine, in order. -/
def on_tick (t : TickData) : List BusEvent :=
  [⟨EVENT_TICK ++ t.symbol, Payload.tick t⟩, ⟨EVENT_TICK, Payload.tick t⟩]

/-- `BaseGateway.on_order`: publishes a snapshot copy twice. -/
def on_order (o : OrderData) : List BusEvent :=
  [⟨EVENT_ORDER ++ (snapshot o).vt_orderid, Payload.order (snapshot o)⟩,
   ⟨EVENT_ORDER, Payload.order (snapshot o)⟩]

/-- `BaseGateway.on_trade`. -/
def on_trade (t : TradeData) : List BusEvent :=
  [⟨EVENT_TRADE ++ t.vt_tradeid, Payload.trade t⟩,
   ⟨EVENT_TRADE, Payload.trade t⟩]

/-- `BaseGateway.on_position`: a single put with the base type. -/
def on_position (p : PositionData) : List BusEvent :=
  [⟨EVENT_POSITION, Payload.position p⟩]

/-- `BaseGateway.on_account`: a single put with the base type. -/
def on_account (a : AccountData) : List BusEvent :=
  [⟨EVENT_ACCOUNT, Payload.account a⟩]

end BaseGateway

/-!  ## Paper gateway (`src/gateways/paper_gateway.py`)

The gateway state mirrors the instance attributes of `PaperGateway`.  The
callback publications (`on_order` / `on_trade` / `on_account` via
`query_account`) are modelled at the logical level: one `PaperEvent` per
callback invocation, in invocation order.  -/

/-- One logical callback publication of the paper gateway. -/
inductive PaperEvent where
  | order (o : OrderData)
  | trade (t : TradeData)
  | account (balance : ℚ)
deriving DecidableEq

/-- The mutable state of `PaperGateway`: `_cash`, `_positions` (defaultdict,
default `0`), `_avg_prices` (defaultdict, default `0`), `_pending_orders`
(dict in insertion order), `_last_prices`, `_order_counter`. -/
structure PaperGateway where
  cash : ℚ
  positions : String → ℚ
  avg_prices : String → ℚ
  pending_orders : List (String × OrderData)
  last_prices : String → Option ℚ
  order_counter : ℕ

/-- Fresh paper gateway as built by `__init__(event_engine, initial_cash)`. -/
def PaperGateway.init (initial_cash : ℚ) : PaperGateway :=
  { cash := initial_cash
    positions := fun _ => 0
    avg_prices := fun _ => 0
    pending_orders := []
    last_prices := fun _ => none
    order_counter := 0 }

/-- Six-digit zero padding of the order counter. -/
def pad6 (n : ℕ) : String :=
  let s := toString n
  ⟨List.replicate (6 - s.length) '0'⟩ ++ s

/-- The local order id `f"PAPER{counter:06d}"`. -/
def paperOrderId (n : ℕ) : String := "PAPER" ++ pad6 n

namespace PaperGateway

/-- `PaperGateway._fill_order`: update the ledger and emit
`ORDER(ALLTRADED)` + `TRADE` + account refresh, or `ORDER(REJECTED)`.
The random uuid trade id is modelled as `""`. -/
def fill_order (gw : PaperGateway) (order : OrderData) (fill_price : ℚ) :
    PaperGateway × List PaperEvent :=
  let volume := order.volume
  match order.direction with
  | Direction.LONG =>
    let cost := fill_price * volume
    if gw.cash < cost then
      -- Partial fill not implemented: reject if insufficient funds
      (gw, [PaperEvent.order { order with status := Status.REJECTED }])
    else
      let old_vol := gw.positions order.symbol
      let old_avg := gw.avg_prices order.symbol
      let new_vol := old_vol + volume
      let new_avg :=
        if 0 < new_vol then (old_avg * old_vol + fill_price * volume) / new_vol
        else 0
      let gw' := { gw with
        cash := gw.cash - cost
        avg_prices := Function.update gw.avg_prices order.symbol new_avg
        positions := Function.update gw.positions order.symbol new_vol }
      let filled := { order with status := Status.ALLTRADED, traded := volume }
      (gw', [PaperEvent.order filled,
             PaperEvent.trade
               { symbol := order.symbol, orderid := order.orderid,
                 tradeid := "", direction := order.direction,
                 price := fill_price, volume := volume },
             PaperEvent.account gw'.cash])
  | Direction.SHORT =>
    -- Sell / close long
    let held := gw.positions order.symbol
    let actual_vol := min volume held
    if actual_vol ≤ 0 then
      (gw, [PaperEvent.order { order with status := Status.REJECTED }])
    else
      let gw' := { gw with
        cash := gw.cash + fill_price * actual_vol
        positions := Function.update gw.positions order.symbol
          (held - actual_vol) }
      let filled :=
        { order with status := Status.ALLTRADED, traded := actual_vol }
      (gw', [PaperEvent.order filled,
             PaperEvent.trade
               { symbol := order.symbol, orderid := order.orderid,
                 tradeid := "", direction := order.direction,
                 price := fill_price, volume := actual_vol },
             PaperEvent.account gw'.cash])

/-- Remove a pending order by local id (dict `.pop(orderid, None)`). -/
def popPending (pending : List (String × OrderData)) (orderid : String) :
    List (String × OrderData) :=
  pending.filter (fun p => ¬ (p.1 = orderid))

/-- `PaperGateway._try_fill_limit`: fill a limit order when the market price
satisfies the limit, always at the limit price. -/
def try_fill_limit (gw : PaperGateway) (order : OrderData)
    (market_price : ℚ) : PaperGateway × List PaperEvent :=
  match order.direction with
  | Direction.LONG =>
    -- Buy limit: fill when market_price <= limit price
    if market_price ≤ order.price then
      let gw := { gw with pending_orders := popPending gw.pending_orders order.orderid }
      fill_order gw order order.price
    else (gw, [])
  | Direction.SHORT =>
    -- Sell limit: fill when market_price >= limit price
    if order.price ≤ market_price then
      let gw := { gw with pending_orders := popPending gw.pending_orders order.orderid }
      fill_order gw order order.price
    else (gw, [])

/-- `PaperGateway._check_pending_orders`: snapshot the pending orders for the
symbol, then attempt each fill in turn. -/
def check_pending_orders (gw : PaperGateway) (symbol : String) (price : ℚ) :
    PaperGateway × List PaperEvent :=
  let pending := (gw.pending_orders.filter (fun p => p.2.symbol = symbol)).map (·.2)
  pending.foldl
    (fun acc o =>
      let r := try_fill_limit acc.1 o price
      (r.1, acc.2 ++ r.2))
    (gw, [])

/-- The market fill price resolution in `send_order`:
`last_prices.get(symbol, req.price)`, falling back to `req.price` when not
positive. -/
def resolveMarketPrice (gw : PaperGateway) (req : OrderRequest) : ℚ :=
  let fill_price := (gw.last_prices req.symbol).getD req.price
  if fill_price ≤ 0 then req.price else fill_price

/-- `PaperGateway.send_order`.  Returns the new state, the published events in
order, and the returned `vt_orderid` string. -/
def send_order (gw : PaperGateway) (req : OrderRequest) :
    PaperGateway × List PaperEvent × String :=
  let counter := gw.order_counter + 1
  let orderid := paperOrderId counter
  let order := req.create_order_data orderid
  let gw := { gw with order_counter := counter }
  let submitting := PaperEvent.order order  -- SUBMITTING
  match req.order_type with
  | OrderType.MARKET =>
    let fill_price := resolveMarketPrice gw req
    let r := fill_order gw order fill_price
    (r.1, submitting :: r.2, order.vt_orderid)
  | OrderType.LIMIT =>
    -- Queue limit order
    let gw := { gw with pending_orders := gw.pending_orders ++ [(orderid, order)] }
    -- Attempt immediate fill if price already satisfies limit
    let last := (gw.last_prices req.symbol).getD 0
    if 0 < last then
      let r := try_fill_limit gw order last
      (r.1, submitting :: r.2, order.vt_orderid)
    else
      (gw, [submitting], order.vt_orderid)

/-- `PaperGateway._on_bar_event`: record the close as last price, then try the
pending limit orders of that symbol. -/
def on_bar_event (gw : PaperGateway) (bar : BarData) :
    PaperGateway × List PaperEvent :=
  let gw := { gw with
    last_prices := Function.update gw.last_prices bar.symbol (some bar.close) }
  check_pending_orders gw bar.symbol bar.close

end PaperGateway

/-!  ## OMS (`src/core/oms.py`)

`_process_order_event` maintains the full order book and the live
active-order sub-index; `_update_position_from_trade` aggregates fills into
per-`<symbol>.<direction>` positions.  The position key
`f"{trade.symbol}.{trade.direction.value}"` is modelled by the pair
`(symbol, direction)` (the string encoding is injective, since `"long"` and
`"short"` are distinct and neither is a suffix of the other). -/

namespace OmsEngine

/-- The two order indexes of `OmsEngine`. -/
structure OrderState where
  orders : String → Option OrderData
  active_orders : String → Option OrderData

/-- Fresh `OmsEngine` order indexes (both dicts empty). -/
def initOrderState : OrderState :=
  { orders := fun _ => none, active_orders := fun _ => none }

/-- `OmsEngine._process_order_event`. -/
def process_order_event (st : OrderState) (order : OrderData) : OrderState :=
  let st := { st with
    orders := Function.update st.orders order.vt_orderid (some order) }
  if order.is_active then
    { st with active_orders :=
        Function.update st.active_orders order.vt_orderid (some order) }
  else
    { st with active_orders :=
        Function.update st.active_orders order.vt_orderid none }

/-- Process a sequence of `ORDER` events in arrival order. -/
def runOrderEvents (st : OrderState) (evs : List OrderData) : OrderState :=
  evs.foldl process_order_event st

/-- The mutable fields of a `PositionData` touched by the OMS trade
aggregation: `(volume, avg_price)`. -/
abbrev Positions := String × Direction → Option (ℚ × ℚ)

/-- `OmsEngine._update_position_from_trade`: create the position on first
fill, then `volume += trade.volume` with volume-weighted average price. -/
def update_position_from_trade (positions : Positions) (trade : TradeData) :
    Positions :=
  let key := (trade.symbol, trade.direction)
  -- if absent, created as PositionData(symbol, direction) with volume 0
  let old := (positions key).getD (0, 0)
  let old_volume := old.1
  let old_avg := old.2
  let new_volume := old_volume + trade.volume
  let new_avg :=
    if 0 < new_volume then
      (old_avg * old_volume + trade.price * trade.volume) / new_volume
    else 0
  Function.update positions key (some (new_volume, new_avg))

/-- Process a sequence of `TRADE` events in arrival order. -/
def runTrades (positions : Positions) (trades : List TradeData) : Positions :=
  trades.foldl update_position_from_trade positions

/-- Volume of the position stored at a key (`0` when absent). -/
def posVolume (positions : Positions) (key : String × Direction) : ℚ :=
  ((positions key).getD (0, 0)).1

end OmsEngine

/-!  ## Base strategy (`src/core/strategy.py`)

The strategy state mirrors the instance attributes used by
`execute_trading` / `cancel_all`.  Sent requests are returned as lists:
`execute_trading` yields the cancel requests issued by `cancel_all` followed
by the new order requests built by `buy` / `sell`. -/

namespace BaseStrategy

/-- The `BaseStrategy` attributes used by target-position reconciliation. -/
structure StratState where
  strategy_name : String
  pos_data : String → ℚ       -- defaultdict(float)
  target_data : String → ℚ    -- defaultdict(float)
  active_orderids : List String
  orders : String → Option OrderData

/-- `BaseStrategy.set_target`. -/
def set_target (st : StratState) (symbol : String) (target : ℚ) : StratState :=
  { st with target_data := Function.update st.target_data symbol target }

/-- `BaseStrategy.get_target` (defaultdict: `0` when unset). -/
def get_target (st : StratState) (symbol : String) : ℚ := st.target_data symbol

/-- `BaseStrategy.get_pos` (defaultdict: `0` when unset). -/
def get_pos (st : StratState) (symbol : String) : ℚ := st.pos_data symbol

/-- The `OrderRequest` built by `_send_order`. -/
def send_order_req (st : StratState) (symbol : String) (direction : Direction)
    (action : Action) (order_type : OrderType) (price volume : ℚ) :
    OrderRequest :=
  { symbol := symbol
    direction := direction
    action := action
    order_type := order_type
    volume := volume
    price := price
    reference := st.strategy_name }

/-- `BaseStrategy.buy`: a LONG OPEN limit order request. -/
def buy (st : StratState) (symbol : String) (price volume : ℚ) : OrderRequest :=
  send_order_req st symbol Direction.LONG Action.OPEN OrderType.LIMIT price volume

/-- `BaseStrategy.sell`: a SHORT CLOSE limit order request. -/
def sell (st : StratState) (symbol : String) (price volume : ℚ) : OrderRequest :=
  send_order_req st symbol Direction.SHORT Action.CLOSE OrderType.LIMIT price volume

/-- `BaseStrategy.cancel_all`: one `CancelRequest` per tracked id whose order
is known and still active. -/
def cancel_all (st : StratState) : List CancelRequest :=
  st.active_orderids.filterMap (fun vt_orderid =>
    match st.orders vt_orderid with
    | some order =>
        if order.is_active then some order.create_cancel_request else none
    | none => none)

/-- `BaseStrategy.execute_trading`: cancel all active orders, then submit new
limit orders closing the gap between target and actual positions.  `bars` is
the `dict[str, BarData]` in iteration order. -/
def execute_trading (st : StratState) (bars : List (String × BarData))
    (price_add : ℚ) : List CancelRequest × List OrderRequest :=
  let cancels := cancel_all st
  let reqs := bars.foldl
    (fun acc sb =>
      let symbol := sb.1
      let bar := sb.2
      let diff := get_target st symbol - get_pos st symbol
      if 0 < diff then
        acc ++ [buy st symbol (bar.close * (1 + price_add)) |diff|]
      else if diff < 0 then
        acc ++ [sell st symbol (bar.close * (1 - price_add)) |diff|]
      else acc)
    []
  (cancels, reqs)

end BaseStrategy

/-!  ## Signal adapter strategy (`src/strategies/llm_crypto_strategy.py`)

`on_signal` maps decision dictionaries to target deltas and then reconciles
through `execute_trading`.  The decision entries model
`decision.get("action", "hold")` / `decision.get("quantity", 0)` with the
defaults already applied; `engine.get_bar` is passed as an environment
`String → Option BarData`. -/

namespace LlmCryptoStrategy

/-- One decision value of the signal map. -/
structure Decision where
  action : String
  quantity : ℚ
deriving DecidableEq

/-- Python's `str.lower()` (per-character lower-casing). -/
def pyLower (s : String) : String := ⟨s.data.map Char.toLower⟩

/-- The body of the per-symbol loop in `on_signal`: update the target for one
`(symbol, decision)` entry. -/
def apply_decision (st : BaseStrategy.StratState) (symbol : String)
    (decision : Decision) : BaseStrategy.StratState :=
  let action := pyLower decision.action
  let qty := decision.quantity
  let current_pos := BaseStrategy.get_pos st symbol
  if action = "buy" then
    BaseStrategy.set_target st symbol (current_pos + qty)
  else if action = "sell" then
    BaseStrategy.set_target st symbol (max 0 (current_pos - qty))
  else if action = "short" then
    BaseStrategy.set_target st symbol (current_pos - qty)
  else if action = "cover" then
    BaseStrategy.set_target st symbol (current_pos + qty)
  else
    st  -- "hold" (and anything else) → no change to target

/-- `LlmCryptoStrategy.on_signal`: returns the updated strategy state, the
cancel requests and the order requests sent.  `get_bar` models
`self.engine.get_bar`; `price_add` is the injected class parameter. -/
def on_signal (st : BaseStrategy.StratState)
    (signal : List (String × Decision)) (get_bar : String → Option BarData)
    (price_add : ℚ) :
    BaseStrategy.StratState × List CancelRequest × List OrderRequest :=
  match signal with
  | [] => (st, [], [])
  | _ =>
    let st2 := signal.foldl (fun s p => apply_decision s p.1 p.2) st
    -- Build bar map for symbols mentioned in the signal
    let bars := signal.filterMap
      (fun p => (get_bar p.1).map (fun b => (p.1, b)))
    if bars.isEmpty then (st2, [], [])
    else (st2, BaseStrategy.execute_trading st2 bars price_add)

end LlmCryptoStrategy

/-!  ## Setting injection (`src/core/strategy.py`, `BaseStrategy.__init__`)

The constructor loop
`for key, value in setting.items(): if hasattr(self, key): setattr(self, key, value)`
is modelled on the object's attribute environment: a partial map from
attribute names to values.  `hasattr` is definedness, `setattr` is update. -/

namespace SettingInjection

/-- One iteration of the injection loop: assign when the attribute exists. -/
def injectStep {α : Type} (attrs : String → Option α) (key : String)
    (value : α) : String → Option α :=
  if (attrs key).isSome then Function.update attrs key (some value) else attrs

/-- The whole loop over `setting.items()` in iteration order. -/
def inject_settings {α : Type} (attrs : String → Option α)
    (setting : List (String × α)) : String → Option α :=
  setting.foldl (fun a kv => injectStep a kv.1 kv.2) attrs

/-- Last value bound to a key in the setting list, if any. -/
def lastAssoc {α : Type} : List (String × α) → String → Option α
  | [], _ => none
  | kv :: rest, k =>
    match lastAssoc rest k with
    | some v => some v
    | none => if kv.1 = k then some kv.2 else none

end SettingInjection

/-!  ## Ledger invariant quantities (spec section 3, "Invariants")

`ledgerValue` is the left side of the paper-ledger conservation equation,
summed over a finite universe of symbols; `realizedPnl` is the realized
profit `(p − avg_cost) · actual` of a successful close, `0` otherwise. -/

/-- `cash + Σ(position_volume × avg_price)` over the symbols of `S`. -/
def ledgerValue (gw : PaperGateway) (S : Finset String) : ℚ :=
  gw.cash + S.sum (fun s => gw.positions s * gw.avg_prices s)

/-- Realized pnl of one fill attempt, measured on the pre-fill state: a
successful close of actual volume `a = min(v, held)` at price `p` against
average cost `c` realizes `(p − c) · a`; opens and rejections realize `0`. -/
def realizedPnl (gw : PaperGateway) (order : OrderData) (p : ℚ) : ℚ :=
  match order.direction with
  | Direction.LONG => 0
  | Direction.SHORT =>
    let actual := min order.volume (gw.positions order.symbol)
    if 0 < actual then (p - gw.avg_prices order.symbol) * actual else 0

/-- Run a sequence of fill attempts through `PaperGateway.fill_order`. -/
def runFills (gw : PaperGateway) (fills : List (OrderData × ℚ)) :
    PaperGateway :=
  fills.foldl (fun g f => (PaperGateway.fill_order g f.1 f.2).1) gw

/-- Total realized pnl accumulated along a sequence of fill attempts. -/
def totalRealized (gw : PaperGateway) : List (OrderData × ℚ) → ℚ
  | [] => 0
  | f :: fs =>
    realizedPnl gw f.1 f.2 +
      totalRealized (PaperGateway.fill_order gw f.1 f.2).1 fs

/-!  ## Concrete fixtures for the scenario checks -/

/-- C1 fixture: paper gateway with `initial_cash = 100` and
`last_prices["BTC"] = 50000`. -/
def gwC1 : PaperGateway :=
  { PaperGateway.init 100 with
      last_prices := fun s => if s = "BTC" then some 50000 else none }

/-- C1 fixture: LONG MARKET BTC, volume 1, price 50000. -/
def reqC1 : OrderRequest :=
  { symbol := "BTC", direction := Direction.LONG, action := Action.OPEN,
    order_type := OrderType.MARKET, volume := 1, price := 50000 }

/-- C2 witness fixture: symbol universe. -/
def symsC2 : Finset String := {"A"}

/-- C2 witness fixture: a LONG open of 2 at 5, then a SHORT close of 1 at 7. -/
def fillsC2 : List (OrderData × ℚ) :=
  [({ symbol := "A", orderid := "PAPER000001", direction := Direction.LONG,
      action := Action.OPEN, order_type := OrderType.MARKET, price := 5,
      volume := 2 }, 5),
   ({ symbol := "A", orderid := "PAPER000002", direction := Direction.SHORT,
      action := Action.CLOSE, order_type := OrderType.MARKET, price := 7,
      volume := 1 }, 7)]

/-- C3 fixture: LONG LIMIT AAPL, volume 10, price 140. -/
def reqC3 : OrderRequest :=
  { symbol := "AAPL", direction := Direction.LONG, action := Action.OPEN,
    order_type := OrderType.LIMIT, volume := 10, price := 140 }

/-- C3 fixture: submit the limit order on a fresh gateway with cash 100000. -/
def stepC3submit := PaperGateway.send_order (PaperGateway.init 100000) reqC3

/-- C3 fixture: the bar with close 135 published after the submit. -/
def barC3 : BarData :=
  { symbol := "AAPL", open_ := 136, high := 137, low := 134, close := 135,
    volume := 1000 }

/-- C3 fixture: the bar event processed by the gateway. -/
def stepC3bar := PaperGateway.on_bar_event stepC3submit.1 barC3

/-- C3 fixture: the queued order as created by `send_order`. -/
def ordC3 : OrderData := reqC3.create_order_data "PAPER000001"

/-- C3 fixture: the trade expected from the limit fill. -/
def tradeC3 : TradeData :=
  { symbol := "AAPL", orderid := "PAPER000001", tradeid := "",
    direction := Direction.LONG, price := 140, volume := 10 }

/-- C3 witness fixture: a gateway holding `ordC3` pending. -/
def gwC3pending : PaperGateway :=
  { PaperGateway.init 100000 with
      pending_orders := [("PAPER000001", ordC3)], order_counter := 1 }

/-- C3 fixture: the gateway state right after the bar updates the last
price, before the pending orders are tried. -/
def gwC3barState : PaperGateway :=
  { gwC3pending with
      last_prices :=
        Function.update gwC3pending.last_prices "AAPL" (some 135) }

/-- C3 fixture: the state after the triggered limit order is popped from the
pending book, on which the fill executes. -/
def gwC3popState : PaperGateway :=
  { gwC3barState with pending_orders := [] }

/-- C4 fixture: gateway holding 5 units of AAPL and no cash. -/
def gwC4 : PaperGateway :=
  { PaperGateway.init 0 with
      positions := fun s => if s = "AAPL" then 5 else 0 }

/-- C4 fixture: SHORT close of requested volume 10 against 5 held. -/
def ordC4 : OrderData :=
  { symbol := "AAPL", orderid := "PAPER000001",
    direction := Direction.SHORT, action := Action.CLOSE,
    order_type := OrderType.MARKET, price := 2, volume := 10 }

/-- C5 witness fixture: an active (SUBMITTING) order event. -/
def ordC5 : OrderData :=
  { symbol := "AAPL", orderid := "X1", direction := Direction.LONG,
    action := Action.OPEN, order_type := OrderType.LIMIT, price := 10,
    volume := 1 }

/-- C6 counterexample fixture: a concrete position snapshot. -/
def posC6 : PositionData :=
  { symbol := "AAPL", direction := Direction.LONG, volume := 3,
    avg_price := 100 }

/-- C7 fixture: strategy with `pos[AAPL]=0`, `target[AAPL]=100`, no active
orders. -/
def stC7 : BaseStrategy.StratState :=
  { strategy_name := "demo"
    pos_data := fun _ => 0
    target_data := fun s => if s = "AAPL" then 100 else 0
    active_orderids := []
    orders := fun _ => none }

/-- C7 fixture: AAPL bar with close 150. -/
def barC7 : BarData :=
  { symbol := "AAPL", open_ := 150, high := 150, low := 150, close := 150,
    volume := 1 }

/-- C8 fixture: strategy with `pos[ETH]=0`, `target[ETH]=2.5`, no active
orders. -/
def stC8 : BaseStrategy.StratState :=
  { strategy_name := "llm_crypto"
    pos_data := fun _ => 0
    target_data := fun s => if s = "ETH" then 5/2 else 0
    active_orderids := []
    orders := fun _ => none }

/-- C8 fixture: an ETH bar with close 100. -/
def barC8 : BarData :=
  { symbol := "ETH", open_ := 100, high := 100, low := 100, close := 100,
    volume := 1 }

/-- C8 fixture: OMS bar environment holding only the ETH bar. -/
def getBarC8 : String → Option BarData :=
  fun s => if s = "ETH" then some barC8 else none

/-- C8 fixture: the pure-hold decision. -/
def holdC8 : LlmCryptoStrategy.Decision := { action := "hold", quantity := 0 }

/-- C9 fixture: the attribute environment of a freshly constructed
`LlmCryptoStrategy` right before the setting-injection loop runs: the
instance attributes assigned earlier in `__init__`, the class attributes,
and the methods (values abbreviated; only definedness matters for
`hasattr`). -/
def llmAttrs : String → Option String := fun k =>
  if k = "engine" then some "<OmsEngine>"
  else if k = "gateway" then some "<PaperGateway>"
  else if k = "strategy_name" then some "llm_crypto"
  else if k = "symbols" then some "<list>"
  else if k = "pos_data" then some "<defaultdict>"
  else if k = "target_data" then some "<defaultdict>"
  else if k = "active_orderids" then some "<set>"
  else if k = "orders" then some "<dict>"
  else if k = "parameters" then some "<list>"
  else if k = "variables" then some "<list>"
  else if k = "price_add" then some "0.001"
  else if k = "on_init" then some "<method>"
  else if k = "on_bar" then some "<method>"
  else if k = "on_signal" then some "<method>"
  else if k = "set_target" then some "<method>"
  else if k = "get_target" then some "<method>"
  else if k = "get_pos" then some "<method>"
  else if k = "execute_trading" then some "<method>"
  else if k = "buy" then some "<method>"
  else if k = "sell" then some "<method>"
  else if k = "short" then some "<method>"
  else if k = "cover" then some "<method>"
  else if k = "cancel_all" then some "<method>"
  else if k = "on_order" then some "<method>"
  else none

/-- C9 fixture: the declared class-level parameters of `LlmCryptoStrategy`
(its docstring lists exactly `price_add`). -/
def llm_declared_parameters : List String := ["price_add"]

/-- C10 fixture: a LONG open of 10 at 5 on a fresh gateway with cash 1000. -/
def ordC10long : OrderData :=
  { symbol := "S", orderid := "PAPER000001", direction := Direction.LONG,
    action := Action.OPEN, order_type := OrderType.MARKET, price := 5,
    volume := 10 }

/-- C10 fixture: a SHORT close of 4 at 6 after the open. -/
def ordC10short : OrderData :=
  { symbol := "S", orderid := "PAPER000002", direction := Direction.SHORT,
    action := Action.CLOSE, order_type := OrderType.MARKET, price := 6,
    volume := 4 }

/-- C10 fixture: gateway state after the LONG open. -/
def gwC10a := PaperGateway.fill_order (PaperGateway.init 1000) ordC10long 5

/-- C10 fixture: gateway state after the SHORT close. -/
def gwC10b := PaperGateway.fill_order gwC10a.1 ordC10short 6

/-- C10 fixture: the trades the gateway emitted during the two fills, in
order -- exactly what the OMS would consume. -/
def tradesC10 : List TradeData :=
  (gwC10a.2 ++ gwC10b.2).filterMap (fun e =>
    match e with
    | PaperEvent.trade t => some t
    | _ => none)

/-!  ## Helper lemmas -/

/-- One `ORDER` event preserves the OMS active-order invariant. -/
lemma oms_inv_step (st : OmsEngine.OrderState) (order : OrderData)
    (h : ∀ k o, st.active_orders k = some o →
      (st.orders k).isSome = true ∧ o.is_active = true) :
    ∀ k o, (OmsEngine.process_order_event st order).active_orders k = some o →
      ((OmsEngine.process_order_event st order).orders k).isSome = true
        ∧ o.is_active = true := by
  intro k o hk
  unfold OmsEngine.process_order_event at hk ⊢
  by_cases hact : order.is_active = true
  · rw [if_pos hact] at hk ⊢
    dsimp only at hk ⊢
    by_cases hkv : k = order.vt_orderid
    · subst hkv
      rw [Function.update_same] at hk
      cases hk
      exact ⟨by rw [Function.update_same]; rfl, hact⟩
    · rw [Function.update_noteq hkv] at hk
      exact ⟨by rw [Function.update_noteq hkv]; exact (h k o hk).1,
        (h k o hk).2⟩
  · rw [if_neg hact] at hk ⊢
    dsimp only at hk ⊢
    by_cases hkv : k = order.vt_orderid
    · subst hkv
      rw [Function.update_same] at hk
      cases hk
    · rw [Function.update_noteq hkv] at hk
      exact ⟨by rw [Function.update_noteq hkv]; exact (h k o hk).1,
        (h k o hk).2⟩

/-- The OMS active-order invariant is preserved along any event sequence. -/
lemma oms_inv_run :
    ∀ (evs : List OrderData) (st : OmsEngine.OrderState),
      (∀ k o, st.active_orders k = some o →
        (st.orders k).isSome = true ∧ o.is_active = true) →
      ∀ k o, (OmsEngine.runOrderEvents st evs).active_orders k = some o →
        ((OmsEngine.runOrderEvents st evs).orders k).isSome = true
          ∧ o.is_active = true
  | [], _, h => h
  | e :: evs, st, h =>
      oms_inv_run evs (OmsEngine.process_order_event st e) (oms_inv_step st e h)

/-- The order-generation fold of `execute_trading` in closed form. -/
lemma execute_orders_eq (st : BaseStrategy.StratState) (pa : ℚ) :
    ∀ (bars : List (String × BarData)) (acc : List OrderRequest),
      bars.foldl
        (fun acc sb =>
          let symbol := sb.1
          let bar := sb.2
          let diff := BaseStrategy.get_target st symbol - BaseStrategy.get_pos st symbol
          if 0 < diff then
            acc ++ [BaseStrategy.buy st symbol (bar.close * (1 + pa)) |diff|]
          else if diff < 0 then
            acc ++ [BaseStrategy.sell st symbol (bar.close * (1 - pa)) |diff|]
          else acc)
        acc
      = acc ++ bars.flatMap (fun sb =>
          let diff := BaseStrategy.get_target st sb.1 - BaseStrategy.get_pos st sb.1
          if 0 < diff then
            [BaseStrategy.buy st sb.1 (sb.2.close * (1 + pa)) |diff|]
          else if diff < 0 then
            [BaseStrategy.sell st sb.1 (sb.2.close * (1 - pa)) |diff|]
          else [])
  | [], acc => by simp
  | sb :: bars, acc => by
      by_cases h1 : 0 < BaseStrategy.get_target st sb.1 - BaseStrategy.get_pos st sb.1
      · simp only [List.foldl_cons, List.flatMap_cons, h1, if_true,
          execute_orders_eq st pa bars, List.append_assoc]
      · by_cases h2 : BaseStrategy.get_target st sb.1 - BaseStrategy.get_pos st sb.1 < 0
        · simp only [List.foldl_cons, List.flatMap_cons, h1, if_false, h2, if_true,
            execute_orders_eq st pa bars, List.append_assoc]
        · simp only [List.foldl_cons, List.flatMap_cons, h1, if_false, h2,
            execute_orders_eq st pa bars, List.nil_append, List.append_nil]

/-- Closed form of one injection-loop iteration. -/
lemma injectStep_apply {α : Type} (attrs : String → Option α) (key : String)
    (v : α) (k : String) :
    SettingInjection.injectStep attrs key v k
      = if (attrs key).isSome = true ∧ k = key then some v else attrs k := by
  unfold SettingInjection.injectStep
  by_cases h1 : (attrs key).isSome = true
  · rw [if_pos h1]
    by_cases h2 : k = key
    · subst h2
      rw [Function.update_same, if_pos ⟨h1, rfl⟩]
    · rw [Function.update_noteq h2, if_neg (fun hc => h2 hc.2)]
  · rw [if_neg h1, if_neg (fun hc => h1 hc.1)]

/-- `injectStep` never changes which attributes exist. -/
lemma injectStep_isSome {α : Type} (attrs : String → Option α) (key : String)
    (v : α) (k : String) :
    ((SettingInjection.injectStep attrs key v) k).isSome = (attrs k).isSome := by
  rw [injectStep_apply]
  by_cases h : (attrs key).isSome = true ∧ k = key
  · rw [if_pos h]
    rcases h with ⟨h1, h2⟩
    subst h2
    simp [h1]
  · rw [if_neg h]

/-- Closed form of the setting-injection loop: an existing attribute gets the
last value bound to its key, anything else is untouched. -/
lemma inject_settings_eq {α : Type} :
    ∀ (setting : List (String × α)) (attrs : String → Option α) (k : String),
      SettingInjection.inject_settings attrs setting k =
        (if (attrs k).isSome = true then
          match SettingInjection.lastAssoc setting k with
          | some v => some v
          | none => attrs k
        else attrs k)
  | [], attrs, k => by
      show attrs k = _
      have hnil : SettingInjection.lastAssoc ([] : List (String × α)) k = none := rfl
      by_cases h : (attrs k).isSome = true
      · rw [if_pos h, hnil]
      · rw [if_neg h]
  | kv :: rest, attrs, k => by
      have ih := inject_settings_eq rest
        (SettingInjection.injectStep attrs kv.1 kv.2) k
      have hstep : SettingInjection.inject_settings attrs (kv :: rest) k
          = SettingInjection.inject_settings
              (SettingInjection.injectStep attrs kv.1 kv.2) rest k := rfl
      rw [hstep, ih, injectStep_isSome, injectStep_apply]
      have hcons : SettingInjection.lastAssoc (kv :: rest) k
          = (match SettingInjection.lastAssoc rest k with
             | some v => some v
             | none => if kv.1 = k then some kv.2 else none) := rfl
      rw [hcons]
      by_cases hk : (attrs k).isSome = true
      · rw [if_pos hk, if_pos hk]
        rcases hrest : SettingInjection.lastAssoc rest k with _ | v
        · by_cases hkk : kv.1 = k
          · subst hkk
            show (if (attrs kv.1).isSome = true ∧ kv.1 = kv.1
                then some kv.2 else attrs kv.1)
              = (match (if kv.1 = kv.1 then some kv.2 else none) with
                 | some v => some v
                 | none => attrs kv.1)
            rw [if_pos ⟨hk, rfl⟩, if_pos rfl]
          · show (if (attrs kv.1).isSome = true ∧ k = kv.1
                then some kv.2 else attrs k)
              = (match (if kv.1 = k then some kv.2 else none) with
                 | some v => some v
                 | none => attrs k)
            rw [if_neg (fun hc => hkk hc.2.symm), if_neg hkk]
        · rfl
      · rw [if_neg hk, if_neg hk]
        show (if (attrs kv.1).isSome = true ∧ k = kv.1
            then some kv.2 else attrs k) = attrs k
        refine if_neg (fun hc => hk ?_)
        rw [hc.2]
        exact hc.1

/-!  ## Claim theorems -/

/-- Claim C5: for every sequence of ORDER events processed by the OMS, after
processing any prefix every key of `active_orders` is also a key of
`orders` and every stored order has an active status; processing an ORDER
event overwrites `orders[vt_orderid]` and inserts the order into
`active_orders` exactly when it is active, removing it otherwise. -/
theorem oms_active_orders_invariant :
    (∀ evs : List OrderData, ∀ k o,
        (OmsEngine.runOrderEvents OmsEngine.initOrderState evs).active_orders k
            = some o →
        ((OmsEngine.runOrderEvents OmsEngine.initOrderState evs).orders k).isSome
            = true
          ∧ o.is_active = true)
    ∧ (∀ (st : OmsEngine.OrderState) (order : OrderData),
        (OmsEngine.process_order_event st order).orders order.vt_orderid
            = some order
        ∧ (OmsEngine.process_order_event st order).active_orders order.vt_orderid
            = (if order.is_active then some order else none)) := by
  constructor
  · intro evs
    exact oms_inv_run evs OmsEngine.initOrderState (fun k o h => by
      simp [OmsEngine.initOrderState] at h)
  · intro st order
    unfold OmsEngine.process_order_event
    by_cases hact : order.is_active = true
    · simp only [hact, if_true]
      exact ⟨Function.update_same _ _ _, Function.update_same _ _ _⟩
    · simp only [hact, if_false]
      exact ⟨Function.update_same _ _ _, Function.update_same _ _ _⟩

/-- Claim C5 witness: after a single active ORDER event, the recorded entry
is present in both indexes and active. -/
theorem oms_active_orders_invariant_witness :
    ((OmsEngine.runOrderEvents OmsEngine.initOrderState [ordC5]).orders
        ordC5.vt_orderid).isSome = true
      ∧ ordC5.is_active = true :=
  oms_active_orders_invariant.1 [ordC5] ordC5.vt_orderid ordC5 (by decide)

/-- Claim C6 (amended): `on_tick`, `on_order`, `on_trade` dual-publish (the
composite type first, then the base type, order events as snapshot copies);
`on_position` and `on_account` publish exactly once, with the base type
only. -/
theorem gateway_publish_shapes :
    (∀ t : TickData, BaseGateway.on_tick t =
      [⟨EVENT_TICK ++ t.symbol, Payload.tick t⟩, ⟨EVENT_TICK, Payload.tick t⟩])
    ∧ (∀ o : OrderData, BaseGateway.on_order o =
      [⟨EVENT_ORDER ++ (BaseGateway.snapshot o).vt_orderid,
          Payload.order (BaseGateway.snapshot o)⟩,
       ⟨EVENT_ORDER, Payload.order (BaseGateway.snapshot o)⟩])
    ∧ (∀ tr : TradeData, BaseGateway.on_trade tr =
      [⟨EVENT_TRADE ++ tr.vt_tradeid, Payload.trade tr⟩,
       ⟨EVENT_TRADE, Payload.trade tr⟩])
    ∧ (∀ p : PositionData, BaseGateway.on_position p =
      [⟨EVENT_POSITION, Payload.position p⟩])
    ∧ (∀ a : AccountData, BaseGateway.on_account a =
      [⟨EVENT_ACCOUNT, Payload.account a⟩]) :=
  ⟨fun _ => rfl, fun _ => rfl, fun _ => rfl, fun _ => rfl, fun _ => rfl⟩

/-- Claim C6 counterexample: `on_position` publishes a single event with the
base type, not two events, so the dual-publish claim fails for position
callbacks. -/
theorem on_position_single_publish :
    (BaseGateway.on_position posC6).length ≠ 2
      ∧ (BaseGateway.on_position posC6).map BusEvent.type = [EVENT_POSITION] := by
  constructor
  · decide
  · rfl

/-- Claim C7: `execute_trading` first issues the cancel requests of
`cancel_all` (one per currently active tracked order), then per
`(symbol, bar)` with `diff = target − pos` exactly one LONG OPEN LIMIT order
of volume `|diff|` at `close·(1+price_add)` when `diff > 0`, one SHORT CLOSE
LIMIT order of volume `|diff|` at `close·(1−price_add)` when `diff < 0`, and
none when `diff = 0`; with pos 0, target 100, close 150, price_add 0.001
this is one LONG LIMIT order at 150.15 for volume 100. -/
theorem execute_trading_reconciliation :
    (∀ (st : BaseStrategy.StratState) (bars : List (String × BarData))
        (pa : ℚ),
      BaseStrategy.execute_trading st bars pa =
        (BaseStrategy.cancel_all st,
         bars.flatMap (fun sb =>
           let diff := BaseStrategy.get_target st sb.1
             - BaseStrategy.get_pos st sb.1
           if 0 < diff then
             [BaseStrategy.buy st sb.1 (sb.2.close * (1 + pa)) |diff|]
           else if diff < 0 then
             [BaseStrategy.sell st sb.1 (sb.2.close * (1 - pa)) |diff|]
           else [])))
    ∧ BaseStrategy.execute_trading stC7 [("AAPL", barC7)] (1/1000)
        = ([], [{ symbol := "AAPL", direction := Direction.LONG,
                  action := Action.OPEN, order_type := OrderType.LIMIT,
                  volume := 100, price := 15015/100, reference := "demo" }]) := by
  constructor
  · intro st bars pa
    unfold BaseStrategy.execute_trading
    rw [execute_orders_eq st pa bars []]
    rfl
  · unfold BaseStrategy.execute_trading
    rw [execute_orders_eq stC7 (1/1000) [("AAPL", barC7)] []]
    have hd : BaseStrategy.get_target stC7 "AAPL"
        - BaseStrategy.get_pos stC7 "AAPL" = 100 := by
      norm_num [BaseStrategy.get_target, BaseStrategy.get_pos, stC7]
    simp only [List.flatMap_cons, List.flatMap_nil, List.nil_append,
      List.append_nil, hd]
    rw [if_pos (by norm_num : (0:ℚ) < 100)]
    have habs : |(100:ℚ)| = 100 := abs_of_pos (by norm_num)
    simp only [habs]
    norm_num [BaseStrategy.buy, BaseStrategy.send_order_req,
      BaseStrategy.cancel_all, stC7, barC7]

/-- Claim C9 (amended): the constructor's setting loop assigns exactly the
keys for which `hasattr` holds — any existing attribute of the strategy, not
only declared class-level parameters — taking the last value bound to the
key; every other key is silently ignored and all other attributes are left
unchanged. -/
theorem setting_injection_hasattr {α : Type} (attrs : String → Option α)
    (setting : List (String × α)) (k : String) :
    SettingInjection.inject_settings attrs setting k =
      (if (attrs k).isSome = true then
        match SettingInjection.lastAssoc setting k with
        | some v => some v
        | none => attrs k
      else attrs k) :=
  inject_settings_eq setting attrs k

/-- Claim C9 counterexample: `strategy_name` is not a declared class-level
parameter of the signal adapter strategy, yet the injection loop assigns it,
because `hasattr` is true for every existing attribute. -/
theorem setting_injection_nonparameter_assigned :
    ¬ ("strategy_name" ∈ llm_declared_parameters)
      ∧ SettingInjection.inject_settings llmAttrs
          [("strategy_name", "injected")] "strategy_name" = some "injected"
      ∧ llmAttrs "strategy_name" = some "llm_crypto"
      ∧ some "injected" ≠ llmAttrs "strategy_name" := by
  refine ⟨by decide, by decide, rfl, by decide⟩

/-- A composite `vt_orderid` always contains the dot, hence is nonempty. -/
lemma vt_orderid_ne_empty (o : OrderData) : o.vt_orderid ≠ "" := by
  unfold OrderData.vt_orderid
  intro h
  have hlen := congrArg String.length h
  rw [String.length_append, String.length_append] at hlen
  have hdot : String.length "." = 1 := rfl
  have hnil : String.length "" = 0 := rfl
  omega

/-- `fill_order` on a rejecting input publishes only `ORDER(REJECTED)` and
leaves the state untouched. -/
lemma fill_order_rejects (gw : PaperGateway) (order : OrderData) (p : ℚ)
    (h : (order.direction = Direction.LONG ∧ gw.cash < p * order.volume)
       ∨ (order.direction = Direction.SHORT
            ∧ min order.volume (gw.positions order.symbol) ≤ 0)) :
    PaperGateway.fill_order gw order p =
      (gw, [PaperEvent.order { order with status := Status.REJECTED }]) := by
  unfold PaperGateway.fill_order
  rcases h with ⟨hd, hc⟩ | ⟨hd, hc⟩
  · rw [hd]
    dsimp only
    rw [if_pos hc]
  · rw [hd]
    dsimp only
    rw [if_pos hc]

/-- `fill_order` on an accepted LONG fill, in closed form. -/
lemma long_fill_accepts (gw : PaperGateway) (order : OrderData) (p : ℚ)
    (hd : order.direction = Direction.LONG)
    (hc : ¬ gw.cash < p * order.volume) :
    PaperGateway.fill_order gw order p =
      ({ gw with
           cash := gw.cash - p * order.volume
           avg_prices := Function.update gw.avg_prices order.symbol
             (if 0 < gw.positions order.symbol + order.volume then
               (gw.avg_prices order.symbol * gw.positions order.symbol
                 + p * order.volume)
                 / (gw.positions order.symbol + order.volume)
             else 0)
           positions := Function.update gw.positions order.symbol
             (gw.positions order.symbol + order.volume) },
       [PaperEvent.order
          { order with
              status := Status.ALLTRADED
              traded := order.volume },
        PaperEvent.trade
          { symbol := order.symbol
            orderid := order.orderid
            tradeid := ""
            direction := order.direction
            price := p
            volume := order.volume },
        PaperEvent.account (gw.cash - p * order.volume)]) := by
  unfold PaperGateway.fill_order
  rw [hd]
  dsimp only
  rw [if_neg hc]

/-- `fill_order` on an accepted SHORT (closing) fill, in closed form. -/
lemma short_fill_accepts (gw : PaperGateway) (order : OrderData) (p : ℚ)
    (hd : order.direction = Direction.SHORT)
    (hc : ¬ min order.volume (gw.positions order.symbol) ≤ 0) :
    PaperGateway.fill_order gw order p =
      ({ gw with
           cash := gw.cash
             + p * min order.volume (gw.positions order.symbol)
           positions := Function.update gw.positions order.symbol
             (gw.positions order.symbol
               - min order.volume (gw.positions order.symbol)) },
       [PaperEvent.order
          { order with
              status := Status.ALLTRADED
              traded := min order.volume (gw.positions order.symbol) },
        PaperEvent.trade
          { symbol := order.symbol
            orderid := order.orderid
            tradeid := ""
            direction := order.direction
            price := p
            volume := min order.volume (gw.positions order.symbol) },
        PaperEvent.account
          (gw.cash + p * min order.volume (gw.positions order.symbol))]) := by
  unfold PaperGateway.fill_order
  rw [hd]
  dsimp only
  rw [if_neg hc]

/-- Claim C1 (amended): a MARKET order whose fill is rejected (LONG with
cost above cash, or SHORT with nothing held) publishes `ORDER(SUBMITTING)`
then `ORDER(REJECTED)`, leaves cash and positions unchanged, and returns the
order's `vt_orderid` — a nonempty string, not the empty string. -/
theorem paper_send_order_rejection_behavior (gw : PaperGateway)
    (req : OrderRequest) (hm : req.order_type = OrderType.MARKET)
    (hrej : (req.direction = Direction.LONG
              ∧ gw.cash < PaperGateway.resolveMarketPrice gw req * req.volume)
          ∨ (req.direction = Direction.SHORT
              ∧ min req.volume (gw.positions req.symbol) ≤ 0)) :
    (PaperGateway.send_order gw req).2.1 =
        [PaperEvent.order
           (req.create_order_data (paperOrderId (gw.order_counter + 1))),
         PaperEvent.order
           { req.create_order_data (paperOrderId (gw.order_counter + 1)) with
               status := Status.REJECTED }]
      ∧ (PaperGateway.send_order gw req).1.cash = gw.cash
      ∧ (PaperGateway.send_order gw req).1.positions = gw.positions
      ∧ (PaperGateway.send_order gw req).2.2
          = (req.create_order_data (paperOrderId (gw.order_counter + 1))).vt_orderid
      ∧ (PaperGateway.send_order gw req).2.2 ≠ "" := by
  have hfill : PaperGateway.fill_order
      { gw with order_counter := gw.order_counter + 1 }
      (req.create_order_data (paperOrderId (gw.order_counter + 1)))
      (PaperGateway.resolveMarketPrice
        { gw with order_counter := gw.order_counter + 1 } req)
      = ({ gw with order_counter := gw.order_counter + 1 },
         [PaperEvent.order
           { req.create_order_data (paperOrderId (gw.order_counter + 1)) with
               status := Status.REJECTED }]) := by
    apply fill_order_rejects
    rcases hrej with ⟨hd, hc⟩ | ⟨hd, hc⟩
    · exact Or.inl ⟨hd, hc⟩
    · exact Or.inr ⟨hd, hc⟩
  have hso : PaperGateway.send_order gw req
      = (({ gw with order_counter := gw.order_counter + 1 } : PaperGateway),
         PaperEvent.order
             (req.create_order_data (paperOrderId (gw.order_counter + 1)))
           :: [PaperEvent.order
             { req.create_order_data (paperOrderId (gw.order_counter + 1)) with
                 status := Status.REJECTED }],
         (req.create_order_data (paperOrderId (gw.order_counter + 1))).vt_orderid) := by
    unfold PaperGateway.send_order
    rw [hm]
    dsimp only
    rw [hfill]
  rw [hso]
  exact ⟨rfl, rfl, rfl, rfl, vt_orderid_ne_empty _⟩

/-- Claim C1 counterexample: on the spec's own insufficient-funds scenario
(`initial_cash=100`, LONG MARKET BTC vol 1 with last price 50000) the
rejection path returns `"BTC.PAPER000001"`, not the empty string. -/
theorem paper_send_order_rejection_nonempty_return :
    (PaperGateway.send_order gwC1 reqC1).2.1 =
        [PaperEvent.order (reqC1.create_order_data "PAPER000001"),
         PaperEvent.order { reqC1.create_order_data "PAPER000001" with
             status := Status.REJECTED }]
      ∧ (PaperGateway.send_order gwC1 reqC1).1.cash = 100
      ∧ (PaperGateway.send_order gwC1 reqC1).2.2 = "BTC.PAPER000001"
      ∧ "BTC.PAPER000001" ≠ "" := by
  have hfill := fill_order_rejects
    { gwC1 with order_counter := gwC1.order_counter + 1 }
    (reqC1.create_order_data (paperOrderId (gwC1.order_counter + 1)))
    (PaperGateway.resolveMarketPrice
      { gwC1 with order_counter := gwC1.order_counter + 1 } reqC1)
    (Or.inl ⟨rfl, by
      rw [show PaperGateway.resolveMarketPrice
            { gwC1 with order_counter := gwC1.order_counter + 1 } reqC1
            = 50000 from rfl,
        show ({ gwC1 with order_counter := gwC1.order_counter + 1 }
            : PaperGateway).cash = (100:ℚ) from rfl,
        show (reqC1.create_order_data
            (paperOrderId (gwC1.order_counter + 1))).volume = (1:ℚ) from rfl]
      norm_num⟩)
  have hso : PaperGateway.send_order gwC1 reqC1
      = (({ gwC1 with order_counter := gwC1.order_counter + 1 } : PaperGateway),
         PaperEvent.order
             (reqC1.create_order_data (paperOrderId (gwC1.order_counter + 1)))
           :: [PaperEvent.order
             { reqC1.create_order_data (paperOrderId (gwC1.order_counter + 1)) with
                 status := Status.REJECTED }],
         (reqC1.create_order_data
           (paperOrderId (gwC1.order_counter + 1))).vt_orderid) := by
    unfold PaperGateway.send_order
    rw [show reqC1.order_type = OrderType.MARKET from rfl]
    dsimp only
    rw [hfill]
  rw [hso]
  exact ⟨rfl, rfl, rfl, by decide⟩

/-- Claim C1 witness: the rejection theorem applied to the concrete
insufficient-funds scenario. -/
theorem paper_send_order_rejection_behavior_witness :
    (PaperGateway.send_order gwC1 reqC1).1.cash = gwC1.cash
      ∧ (PaperGateway.send_order gwC1 reqC1).2.2 ≠ "" :=
  ⟨(paper_send_order_rejection_behavior gwC1 reqC1 rfl
      (Or.inl ⟨rfl, by
        rw [show PaperGateway.resolveMarketPrice gwC1 reqC1 = 50000 from rfl,
          show gwC1.cash = (100:ℚ) from rfl, show reqC1.volume = (1:ℚ) from rfl]
        norm_num⟩)).2.1,
   (paper_send_order_rejection_behavior gwC1 reqC1 rfl
      (Or.inl ⟨rfl, by
        rw [show PaperGateway.resolveMarketPrice gwC1 reqC1 = 50000 from rfl,
          show gwC1.cash = (100:ℚ) from rfl, show reqC1.volume = (1:ℚ) from rfl]
        norm_num⟩)).2.2.2.2⟩

/-- Claim C4 (amended): a SHORT fill with `actual = min(v, held) ≤ 0` is
rejected with the ledger unchanged; otherwise cash grows by `p·actual`,
the position shrinks by `actual`, the `traded` field on the resulting order
and the `volume` field on the emitted trade equal `actual`, while the
order's own `volume` field keeps the requested `v`. -/
theorem short_fill_partial_close (gw : PaperGateway) (order : OrderData)
    (p : ℚ) (hd : order.direction = Direction.SHORT) :
    (min order.volume (gw.positions order.symbol) ≤ 0 →
      PaperGateway.fill_order gw order p =
        (gw, [PaperEvent.order { order with status := Status.REJECTED }]))
    ∧ (0 < min order.volume (gw.positions order.symbol) →
      (PaperGateway.fill_order gw order p).1.cash
          = gw.cash + p * min order.volume (gw.positions order.symbol)
      ∧ (PaperGateway.fill_order gw order p).1.positions order.symbol
          = gw.positions order.symbol
            - min order.volume (gw.positions order.symbol)
      ∧ (PaperGateway.fill_order gw order p).2 =
          [PaperEvent.order
             { order with
                 status := Status.ALLTRADED
                 traded := min order.volume (gw.positions order.symbol) },
           PaperEvent.trade
             { symbol := order.symbol
               orderid := order.orderid
               tradeid := ""
               direction := order.direction
               price := p
               volume := min order.volume (gw.positions order.symbol) },
           PaperEvent.account
             (gw.cash + p * min order.volume (gw.positions order.symbol))]) := by
  constructor
  · intro h
    exact fill_order_rejects gw order p (Or.inr ⟨hd, h⟩)
  · intro h
    have hne : ¬ (min order.volume (gw.positions order.symbol) ≤ 0) :=
      not_le.mpr h
    rw [short_fill_accepts gw order p hd hne]
    exact ⟨rfl, Function.update_same _ _ _, rfl⟩

/-- Claim C4 counterexample: selling 10 with 5 held emits an order event
whose `volume` field is still the requested 10, not `min(10, 5) = 5`; only
`traded` and the trade volume carry the actual 5. -/
theorem short_fill_order_volume_field_counterexample :
    (PaperGateway.fill_order gwC4 ordC4 2).2.head? =
        some (PaperEvent.order
          { ordC4 with
              status := Status.ALLTRADED
              traded := 5 })
      ∧ ordC4.volume = 10
      ∧ min ordC4.volume (gwC4.positions ordC4.symbol) = 5
      ∧ (10 : ℚ) ≠ 5 := by
  have hmin : min ordC4.volume (gwC4.positions ordC4.symbol) = 5 := by
    rw [show gwC4.positions ordC4.symbol = (5:ℚ) from rfl,
      show ordC4.volume = (10:ℚ) from rfl]
    norm_num [min_def]
  have hfo := short_fill_accepts gwC4 ordC4 2 rfl
    (by rw [hmin]; norm_num)
  rw [hfo]
  refine ⟨?_, rfl, hmin, by norm_num⟩
  rw [hmin]
  rfl

/-- Claim C4 witness: the partial-close theorem applied to selling 10 with 5
held at price 2. -/
theorem short_fill_partial_close_witness :
    (PaperGateway.fill_order gwC4 ordC4 2).1.cash
        = gwC4.cash + 2 * min ordC4.volume (gwC4.positions ordC4.symbol)
      ∧ (PaperGateway.fill_order gwC4 ordC4 2).1.positions ordC4.symbol
          = gwC4.positions ordC4.symbol
            - min ordC4.volume (gwC4.positions ordC4.symbol)
      ∧ (PaperGateway.fill_order gwC4 ordC4 2).2 =
          [PaperEvent.order
             { ordC4 with
                 status := Status.ALLTRADED
                 traded := min ordC4.volume (gwC4.positions ordC4.symbol) },
           PaperEvent.trade
             { symbol := ordC4.symbol
               orderid := ordC4.orderid
               tradeid := ""
               direction := ordC4.direction
               price := 2
               volume := min ordC4.volume (gwC4.positions ordC4.symbol) },
           PaperEvent.account
             (gwC4.cash + 2 * min ordC4.volume (gwC4.positions ordC4.symbol))] :=
  (short_fill_partial_close gwC4 ordC4 2 rfl).2 (by
    rw [show gwC4.positions ordC4.symbol = (5:ℚ) from rfl,
      show ordC4.volume = (10:ℚ) from rfl]
    norm_num [min_def])

/-- Claim C8 (amended): an empty decision map is a no-op; each decision
updates the symbol's target as buy ↦ pos+q, sell ↦ max(0, pos−q),
short ↦ pos−q, cover ↦ pos+q, hold ↦ unchanged, never touching `pos_data`;
a hold decision leaves the strategy state unchanged and sends no order
provided the symbol's target equals its position or no bar is available for
it (otherwise the subsequent `execute_trading` reconciliation may still send
orders); and when no mentioned symbol has a bar available, `execute_trading`
is skipped entirely (no cancels, no orders). -/
theorem on_signal_behavior :
    (∀ (st : BaseStrategy.StratState) (gb : String → Option BarData) (pa : ℚ),
        LlmCryptoStrategy.on_signal st [] gb pa = (st, [], []))
    ∧ (∀ (st : BaseStrategy.StratState) (sym : String)
          (d : LlmCryptoStrategy.Decision),
        (LlmCryptoStrategy.apply_decision st sym d).pos_data = st.pos_data
        ∧ (LlmCryptoStrategy.apply_decision st sym d).target_data sym =
            (if LlmCryptoStrategy.pyLower d.action = "buy" then st.pos_data sym + d.quantity
             else if LlmCryptoStrategy.pyLower d.action = "sell" then
               max 0 (st.pos_data sym - d.quantity)
             else if LlmCryptoStrategy.pyLower d.action = "short" then
               st.pos_data sym - d.quantity
             else if LlmCryptoStrategy.pyLower d.action = "cover" then
               st.pos_data sym + d.quantity
             else st.target_data sym))
    ∧ (∀ (st : BaseStrategy.StratState) (sym : String)
          (d : LlmCryptoStrategy.Decision) (gb : String → Option BarData)
          (pa : ℚ),
        LlmCryptoStrategy.pyLower d.action = "hold" →
        LlmCryptoStrategy.apply_decision st sym d = st
        ∧ (gb sym = none ∨ st.target_data sym = st.pos_data sym →
            (LlmCryptoStrategy.on_signal st [(sym, d)] gb pa).2.2 = []))
    ∧ (∀ (st : BaseStrategy.StratState)
          (signal : List (String × LlmCryptoStrategy.Decision))
          (gb : String → Option BarData) (pa : ℚ),
        signal ≠ [] → (∀ p ∈ signal, gb p.1 = none) →
        (LlmCryptoStrategy.on_signal st signal gb pa).2 = ([], [])) := by
  have happly : ∀ (st : BaseStrategy.StratState) (sym : String)
      (d : LlmCryptoStrategy.Decision), LlmCryptoStrategy.pyLower d.action = "hold" →
      LlmCryptoStrategy.apply_decision st sym d = st := by
    intro st sym d hhold
    unfold LlmCryptoStrategy.apply_decision
    rw [hhold, if_neg (by decide), if_neg (by decide), if_neg (by decide),
      if_neg (by decide)]
  refine ⟨fun _ _ _ => rfl, ?_, ?_, ?_⟩
  · intro st sym d
    unfold LlmCryptoStrategy.apply_decision BaseStrategy.set_target
      BaseStrategy.get_pos
    dsimp only
    constructor
    · split_ifs <;> rfl
    · split_ifs <;>
        first
          | exact Function.update_same _ _ _
          | rfl
  · intro st sym d gb pa hhold
    refine ⟨happly st sym d hhold, ?_⟩
    intro hcase
    have h1 := happly st sym d hhold
    show ((match [(sym, d)] with
      | [] => (st, ([], []))
      | _ =>
        let st2 := [(sym, d)].foldl
          (fun s p => LlmCryptoStrategy.apply_decision s p.1 p.2) st
        let bars := [(sym, d)].filterMap
          (fun p => (gb p.1).map (fun b => (p.1, b)))
        if bars.isEmpty then (st2, ([], []))
        else (st2, BaseStrategy.execute_trading st2 bars pa))
      : BaseStrategy.StratState × List CancelRequest × List OrderRequest).2.2
      = []
    dsimp only
    rw [List.foldl_cons, List.foldl_nil, h1]
    rcases hb : gb sym with _ | b
    · simp only [List.filterMap_cons, List.filterMap_nil, hb, Option.map_none']
      rfl
    · simp only [List.filterMap_cons, List.filterMap_nil, hb, Option.map_some']
      show (BaseStrategy.execute_trading st [(sym, b)] pa).2 = []
      rcases hcase with hnone | heq
      · rw [hb] at hnone
        cases hnone
      · unfold BaseStrategy.execute_trading
        rw [execute_orders_eq st pa [(sym, b)] []]
        simp only [List.flatMap_cons, List.flatMap_nil, List.nil_append,
          List.append_nil]
        have hdiff : BaseStrategy.get_target st sym
            - BaseStrategy.get_pos st sym = 0 := by
          unfold BaseStrategy.get_target BaseStrategy.get_pos
          rw [heq, sub_self]
        rw [hdiff, if_neg (lt_irrefl 0), if_neg (lt_irrefl 0)]
  · intro st signal gb pa hne hnone
    cases signal with
    | nil => exact absurd rfl hne
    | cons p rest =>
      show ((match p :: rest with
        | [] => (st, ([], []))
        | _ =>
          let st2 := (p :: rest).foldl
            (fun s q => LlmCryptoStrategy.apply_decision s q.1 q.2) st
          let bars := (p :: rest).filterMap
            (fun q => (gb q.1).map (fun b => (q.1, b)))
          if bars.isEmpty then (st2, ([], []))
          else (st2, BaseStrategy.execute_trading st2 bars pa))
        : BaseStrategy.StratState × List CancelRequest × List OrderRequest).2
        = ([], [])
      dsimp only
      have hbars : (p :: rest).filterMap
          (fun q => (gb q.1).map (fun b => (q.1, b))) = [] := by
        rw [List.filterMap_eq_nil_iff]
        intro q hq
        rw [hnone q hq]
        rfl
      rw [hbars]
      rfl

/-- Claim C8 counterexample: a pure-hold signal for ETH with `target = 2.5`,
`pos = 0` and an ETH bar available leaves the target unchanged but DOES send
an order — `execute_trading` reconciles the pre-existing gap — so "hold
produces no ORDER events" fails as stated. -/
theorem hold_signal_emits_order_counterexample :
    holdC8.action = "hold"
      ∧ (LlmCryptoStrategy.on_signal stC8 [("ETH", holdC8)] getBarC8
          (1/1000)).1.target_data "ETH" = 5/2
      ∧ (LlmCryptoStrategy.on_signal stC8 [("ETH", holdC8)] getBarC8
          (1/1000)).2.2 ≠ [] := by
  refine ⟨rfl, rfl, ?_⟩
  have hres : (LlmCryptoStrategy.on_signal stC8 [("ETH", holdC8)] getBarC8
      (1/1000)).2.2
      = (BaseStrategy.execute_trading stC8 [("ETH", barC8)] (1/1000)).2 := rfl
  rw [hres]
  unfold BaseStrategy.execute_trading
  rw [execute_orders_eq stC8 (1/1000) [("ETH", barC8)] []]
  simp only [List.flatMap_cons, List.flatMap_nil, List.nil_append,
    List.append_nil]
  have hdiff : BaseStrategy.get_target stC8 "ETH"
      - BaseStrategy.get_pos stC8 "ETH" = 5/2 := by
    rw [show BaseStrategy.get_target stC8 "ETH" = (5/2 : ℚ) from rfl,
      show BaseStrategy.get_pos stC8 "ETH" = (0 : ℚ) from rfl]
    norm_num
  rw [hdiff, if_pos (by norm_num : (0:ℚ) < 5/2)]
  simp

/-- Claim C8 witness: a hold decision with no bar available leaves the state
unchanged and sends no order. -/
theorem on_signal_behavior_witness :
    LlmCryptoStrategy.apply_decision stC8 "ETH" holdC8 = stC8
      ∧ (LlmCryptoStrategy.on_signal stC8 [("ETH", holdC8)]
          (fun _ => none) (1/1000)).2.2 = [] := by
  have h := on_signal_behavior.2.2.1 stC8 "ETH" holdC8 (fun _ => none)
    (1/1000) (by decide)
  exact ⟨h.1, h.2 (Or.inl rfl)⟩

/-- Volume at one key after one trade aggregation step. -/
lemma posVolume_update (positions : OmsEngine.Positions) (t : TradeData)
    (key : String × Direction) :
    OmsEngine.posVolume (OmsEngine.update_position_from_trade positions t) key
      = (if (t.symbol, t.direction) = key
         then OmsEngine.posVolume positions key + t.volume
         else OmsEngine.posVolume positions key) := by
  unfold OmsEngine.update_position_from_trade OmsEngine.posVolume
  dsimp only
  by_cases hk : (t.symbol, t.direction) = key
  · rw [if_pos hk, ← hk, Function.update_same]
    rfl
  · rw [if_neg hk, Function.update_noteq (fun h => hk h.symm)]

/-- Volume at one key after a whole trade sequence: the starting volume plus
the volumes of the trades that aggregate into that key. -/
lemma runTrades_volume :
    ∀ (trades : List TradeData) (positions : OmsEngine.Positions)
      (key : String × Direction),
      OmsEngine.posVolume (OmsEngine.runTrades positions trades) key
        = OmsEngine.posVolume positions key
          + ((trades.filter
              (fun t => decide ((t.symbol, t.direction) = key))).map
                TradeData.volume).sum
  | [], positions, key => by
      simp [OmsEngine.runTrades]
  | t :: ts, positions, key => by
      have ih := runTrades_volume ts
        (OmsEngine.update_position_from_trade positions t) key
      show OmsEngine.posVolume
          (OmsEngine.runTrades
            (OmsEngine.update_position_from_trade positions t) ts) key = _
      rw [ih, posVolume_update]
      by_cases hk : (t.symbol, t.direction) = key
      · rw [if_pos hk,
          List.filter_cons_of_pos (by simpa using hk),
          List.map_cons, List.sum_cons]
        ring
      · rw [if_neg hk,
          List.filter_cons_of_neg (by simpa using hk)]

/-- Claim C10: OMS position volumes are monotonically non-decreasing under
trades of non-negative volume — `_update_position_from_trade` only ADDS the
trade volume to the position keyed by `(symbol, direction)` and leaves every
other key untouched, so a SHORT trade never reduces the long position; the
OMS long position equals the running sum of LONG trade volumes; and feeding
the paper gateway's own trades (open 10, close 4) into the OMS leaves the
long position at 10 while the gateway's netted ledger holds 6. -/
theorem oms_position_aggregation :
    (∀ (positions : OmsEngine.Positions) (t : TradeData), 0 ≤ t.volume →
        ∀ key, OmsEngine.posVolume positions key
          ≤ OmsEngine.posVolume
              (OmsEngine.update_position_from_trade positions t) key)
    ∧ (∀ (positions : OmsEngine.Positions) (t : TradeData)
          (key : String × Direction), key ≠ (t.symbol, t.direction) →
        OmsEngine.update_position_from_trade positions t key = positions key)
    ∧ (∀ (positions : OmsEngine.Positions) (t : TradeData),
        OmsEngine.posVolume (OmsEngine.update_position_from_trade positions t)
            (t.symbol, t.direction)
          = OmsEngine.posVolume positions (t.symbol, t.direction) + t.volume)
    ∧ (∀ (trades : List TradeData) (S : String),
        OmsEngine.posVolume (OmsEngine.runTrades (fun _ => none) trades)
            (S, Direction.LONG)
          = ((trades.filter (fun t =>
                decide ((t.symbol, t.direction) = (S, Direction.LONG)))).map
              TradeData.volume).sum)
    ∧ (OmsEngine.posVolume (OmsEngine.runTrades (fun _ => none) tradesC10)
          ("S", Direction.LONG) = 10
        ∧ gwC10b.1.positions "S" = 6
        ∧ (10:ℚ) ≠ 6) := by
  have ha := long_fill_accepts (PaperGateway.init 1000) ordC10long 5 rfl
    (by
      rw [show (PaperGateway.init 1000).cash = (1000:ℚ) from rfl,
        show ordC10long.volume = (10:ℚ) from rfl]
      norm_num)
  have hheld : gwC10a.1.positions ordC10short.symbol = 10 := by
    show (PaperGateway.fill_order (PaperGateway.init 1000)
        ordC10long 5).1.positions ordC10short.symbol = 10
    rw [ha]
    show Function.update (PaperGateway.init 1000).positions ordC10long.symbol
        ((PaperGateway.init 1000).positions ordC10long.symbol
          + ordC10long.volume) ordC10short.symbol = 10
    rw [show ordC10short.symbol = ordC10long.symbol from rfl,
      Function.update_same,
      show (PaperGateway.init 1000).positions ordC10long.symbol = (0:ℚ)
        from rfl,
      show ordC10long.volume = (10:ℚ) from rfl]
    norm_num
  have hmin : min ordC10short.volume
      (gwC10a.1.positions ordC10short.symbol) = 4 := by
    rw [hheld, show ordC10short.volume = (4:ℚ) from rfl]
    norm_num [min_def]
  have hb := short_fill_accepts gwC10a.1 ordC10short 6 rfl
    (by rw [hmin]; norm_num)
  refine ⟨?_, ?_, ?_, ?_, ?_, ?_, by norm_num⟩
  · intro positions t hv key
    rw [posVolume_update]
    by_cases hk : (t.symbol, t.direction) = key
    · rw [if_pos hk]
      exact le_add_of_nonneg_right hv
    · rw [if_neg hk]
  · intro positions t key hk
    unfold OmsEngine.update_position_from_trade
    exact Function.update_noteq hk _ _
  · intro positions t
    rw [posVolume_update, if_pos rfl]
  · intro trades S
    rw [runTrades_volume]
    rw [show OmsEngine.posVolume (fun _ => none) (S, Direction.LONG) = 0
      from rfl]
    ring
  · -- the OMS consumes the two gateway trades and books 10 long
    have htr : tradesC10 =
        [{ symbol := ordC10long.symbol
           orderid := ordC10long.orderid
           tradeid := ""
           direction := Direction.LONG
           price := 5
           volume := ordC10long.volume },
         { symbol := ordC10short.symbol
           orderid := ordC10short.orderid
           tradeid := ""
           direction := Direction.SHORT
           price := 6
           volume := min ordC10short.volume
             (gwC10a.1.positions ordC10short.symbol) }] := by
      show ((PaperGateway.fill_order (PaperGateway.init 1000)
            ordC10long 5).2
          ++ (PaperGateway.fill_order gwC10a.1 ordC10short 6).2).filterMap _
        = _
      rw [ha, hb]
      rfl
    rw [htr, runTrades_volume]
    rw [show OmsEngine.posVolume (fun _ => none) ("S", Direction.LONG) = 0
      from rfl]
    rw [List.filter_cons_of_pos (by decide),
      List.filter_cons_of_neg (by decide), List.filter_nil,
      List.map_cons, List.map_nil, List.sum_cons, List.sum_nil,
      show ordC10long.volume = (10:ℚ) from rfl]
    norm_num
  · -- the gateway's netted position after the close is 6
    show (PaperGateway.fill_order gwC10a.1 ordC10short 6).1.positions "S" = 6
    rw [hb]
    show Function.update gwC10a.1.positions ordC10short.symbol
        (gwC10a.1.positions ordC10short.symbol
          - min ordC10short.volume
              (gwC10a.1.positions ordC10short.symbol)) "S" = 6
    rw [show "S" = ordC10short.symbol from rfl, Function.update_same,
      hmin, hheld]
    norm_num

/-- Claim C10 witness: the monotonicity and locality parts applied to one
concrete LONG trade on the empty position book. -/
theorem oms_position_aggregation_witness :
    OmsEngine.posVolume (fun _ => none) ("S", Direction.LONG)
        ≤ OmsEngine.posVolume
            (OmsEngine.update_position_from_trade (fun _ => none)
              { symbol := "S", orderid := "O1", tradeid := "T1",
                direction := Direction.LONG, price := 5, volume := 10 })
            ("S", Direction.LONG)
      ∧ OmsEngine.update_position_from_trade (fun _ => none)
          { symbol := "S", orderid := "O1", tradeid := "T1",
            direction := Direction.LONG, price := 5, volume := 10 }
          ("S", Direction.SHORT) = none :=
  ⟨oms_position_aggregation.1 (fun _ => none)
      { symbol := "S", orderid := "O1", tradeid := "T1",
        direction := Direction.LONG, price := 5, volume := 10 }
      (by norm_num) ("S", Direction.LONG),
   oms_position_aggregation.2.1 (fun _ => none)
      { symbol := "S", orderid := "O1", tradeid := "T1",
        direction := Direction.LONG, price := 5, volume := 10 }
      ("S", Direction.SHORT) (by decide)⟩

/-- Splitting a product sum at an updated point (both factors updated). -/
lemma sum_update_mul (S : Finset String) (sym : String) (hS : sym ∈ S)
    (f g : String → ℚ) (a b : ℚ) :
    S.sum (fun s => Function.update f sym a s * Function.update g sym b s)
      = S.sum (fun s => f s * g s) - f sym * g sym + a * b := by
  rw [Finset.sum_eq_sum_diff_singleton_add hS
      (fun s => Function.update f sym a s * Function.update g sym b s),
    Finset.sum_eq_sum_diff_singleton_add hS (fun s => f s * g s)]
  have hcong : (S \ {sym}).sum
      (fun s => Function.update f sym a s * Function.update g sym b s)
      = (S \ {sym}).sum (fun s => f s * g s) := by
    refine Finset.sum_congr rfl (fun x hx => ?_)
    have hne : x ≠ sym := by
      rcases Finset.mem_sdiff.mp hx with ⟨hxS, hnot⟩
      intro he
      exact hnot (Finset.mem_singleton.mpr he)
    rw [Function.update_noteq hne, Function.update_noteq hne]
  rw [hcong, Function.update_same, Function.update_same]
  ring

/-- Splitting a product sum when only the left factor is updated. -/
lemma sum_update_mul_left (S : Finset String) (sym : String) (hS : sym ∈ S)
    (f g : String → ℚ) (a : ℚ) :
    S.sum (fun s => Function.update f sym a s * g s)
      = S.sum (fun s => f s * g s) - f sym * g sym + a * g sym := by
  have h := sum_update_mul S sym hS f g a (g sym)
  rw [Function.update_eq_self] at h
  exact h

/-- One fill attempt changes the ledger value by exactly the realized pnl
(touched position assumed non-negative, volume non-negative). -/
lemma ledger_step (gw : PaperGateway) (order : OrderData) (p : ℚ)
    (S : Finset String) (hS : order.symbol ∈ S) (hv : 0 ≤ order.volume)
    (hpos : 0 ≤ gw.positions order.symbol) :
    ledgerValue (PaperGateway.fill_order gw order p).1 S
      = ledgerValue gw S + realizedPnl gw order p := by
  cases hd : order.direction with
  | LONG =>
    have hr : realizedPnl gw order p = 0 := by
      unfold realizedPnl
      rw [hd]
    by_cases hc : gw.cash < p * order.volume
    · rw [fill_order_rejects gw order p (Or.inl ⟨hd, hc⟩), hr, add_zero]
    · rw [long_fill_accepts gw order p hd hc, hr, add_zero]
      unfold ledgerValue
      dsimp only
      rw [sum_update_mul S order.symbol hS gw.positions gw.avg_prices _ _]
      have hkey : (gw.positions order.symbol + order.volume) *
          (if 0 < gw.positions order.symbol + order.volume then
            (gw.avg_prices order.symbol * gw.positions order.symbol
              + p * order.volume)
              / (gw.positions order.symbol + order.volume)
          else 0)
          = gw.avg_prices order.symbol * gw.positions order.symbol
            + p * order.volume := by
        by_cases hnv : 0 < gw.positions order.symbol + order.volume
        · rw [if_pos hnv, mul_comm, div_mul_cancel₀ _ (ne_of_gt hnv)]
        · have h0 : gw.positions order.symbol + order.volume = 0 :=
            le_antisymm (not_lt.mp hnv) (add_nonneg hpos hv)
          have hvol : order.volume = 0 := by linarith
          have hps : gw.positions order.symbol = 0 := by linarith
          rw [if_neg hnv, hvol, hps]
          ring
      rw [hkey]
      ring
  | SHORT =>
    by_cases hc : min order.volume (gw.positions order.symbol) ≤ 0
    · have hr : realizedPnl gw order p = 0 := by
        unfold realizedPnl
        rw [hd]
        dsimp only
        rw [if_neg (not_lt.mpr hc)]
      rw [fill_order_rejects gw order p (Or.inr ⟨hd, hc⟩), hr, add_zero]
    · have hr : realizedPnl gw order p
          = (p - gw.avg_prices order.symbol)
            * min order.volume (gw.positions order.symbol) := by
        unfold realizedPnl
        rw [hd]
        dsimp only
        rw [if_pos (not_le.mp hc)]
      rw [short_fill_accepts gw order p hd hc, hr]
      unfold ledgerValue
      dsimp only
      rw [sum_update_mul_left S order.symbol hS gw.positions gw.avg_prices _]
      ring

/-- Fills of non-negative volume keep all positions non-negative. -/
lemma fill_positions_nonneg (gw : PaperGateway) (order : OrderData) (p : ℚ)
    (hv : 0 ≤ order.volume) (hpos : ∀ s, 0 ≤ gw.positions s) :
    ∀ s, 0 ≤ (PaperGateway.fill_order gw order p).1.positions s := by
  intro s
  cases hd : order.direction with
  | LONG =>
    by_cases hc : gw.cash < p * order.volume
    · rw [fill_order_rejects gw order p (Or.inl ⟨hd, hc⟩)]
      exact hpos s
    · rw [long_fill_accepts gw order p hd hc]
      dsimp only
      by_cases hs : s = order.symbol
      · rw [hs, Function.update_same]
        exact add_nonneg (hpos _) hv
      · rw [Function.update_noteq hs]
        exact hpos s
  | SHORT =>
    by_cases hc : min order.volume (gw.positions order.symbol) ≤ 0
    · rw [fill_order_rejects gw order p (Or.inr ⟨hd, hc⟩)]
      exact hpos s
    · rw [short_fill_accepts gw order p hd hc]
      dsimp only
      by_cases hs : s = order.symbol
      · rw [hs, Function.update_same]
        have hm := min_le_right order.volume (gw.positions order.symbol)
        linarith
      · rw [Function.update_noteq hs]
        exact hpos s

/-- Over a whole fill sequence the ledger value grows by exactly the total
realized pnl. -/
lemma runFills_ledger (S : Finset String) :
    ∀ (fills : List (OrderData × ℚ)) (gw : PaperGateway),
      (∀ s, 0 ≤ gw.positions s) →
      (∀ f ∈ fills, f.1.symbol ∈ S ∧ 0 ≤ f.1.volume) →
      ledgerValue (runFills gw fills) S
        = ledgerValue gw S + totalRealized gw fills
  | [], gw, _, _ => by
      simp [runFills, totalRealized]
  | f :: fs, gw, hpos, hall => by
      have hf := hall f (List.mem_cons_self f fs)
      have ih := runFills_ledger S fs (PaperGateway.fill_order gw f.1 f.2).1
        (fill_positions_nonneg gw f.1 f.2 hf.2 hpos)
        (fun g hg => hall g (List.mem_cons_of_mem f hg))
      show ledgerValue
          (runFills (PaperGateway.fill_order gw f.1 f.2).1 fs) S = _
      rw [ih, ledger_step gw f.1 f.2 S hf.1 hf.2 (hpos _)]
      show _ = ledgerValue gw S
        + (realizedPnl gw f.1 f.2
            + totalRealized (PaperGateway.fill_order gw f.1 f.2).1 fs)
      ring

/-- Claim C2: starting from initial cash `C0` with empty positions, any
sequence of fill attempts (with non-negative volumes over a symbol universe
`S`) keeps `cash + Σ(position_volume × avg_price) = C0 + Σ realized pnl`,
where a close of actual volume `a` at price `p` against average cost `c`
realizes `(p − c)·a`; moreover every single fill operation preserves the
equation. -/
theorem paper_ledger_invariant (S : Finset String) (C0 : ℚ)
    (fills : List (OrderData × ℚ))
    (hall : ∀ f ∈ fills, f.1.symbol ∈ S ∧ 0 ≤ f.1.volume) :
    ledgerValue (runFills (PaperGateway.init C0) fills) S
        = C0 + totalRealized (PaperGateway.init C0) fills
    ∧ (∀ (gw : PaperGateway) (order : OrderData) (p : ℚ),
        (∀ s, 0 ≤ gw.positions s) → order.symbol ∈ S → 0 ≤ order.volume →
        ledgerValue (PaperGateway.fill_order gw order p).1 S
          = ledgerValue gw S + realizedPnl gw order p) := by
  constructor
  · rw [runFills_ledger S fills (PaperGateway.init C0)
      (fun s => le_refl 0) hall]
    have hinit : ledgerValue (PaperGateway.init C0) S = C0 := by
      unfold ledgerValue PaperGateway.init
      simp
    rw [hinit]
  · intro gw order p hpos hmem hv
    exact ledger_step gw order p S hmem hv (hpos _)

/-- Claim C2 witness: the invariant applied to a concrete open-then-close
round trip over the one-symbol universe. -/
theorem paper_ledger_invariant_witness :
    ledgerValue (runFills (PaperGateway.init 100) fillsC2) symsC2
      = 100 + totalRealized (PaperGateway.init 100) fillsC2 :=
  (paper_ledger_invariant symsC2 100 fillsC2 (by decide)).1

/-- Every trade emitted by one `fill_order` call carries the fill price. -/
lemma fill_trades_price (gw : PaperGateway) (order : OrderData) (p : ℚ) :
    ∀ t, PaperEvent.trade t ∈ (PaperGateway.fill_order gw order p).2 →
      t.price = p := by
  intro t ht
  cases hd : order.direction with
  | LONG =>
    by_cases hc : gw.cash < p * order.volume
    · rw [fill_order_rejects gw order p (Or.inl ⟨hd, hc⟩)] at ht
      simp at ht
    · rw [long_fill_accepts gw order p hd hc] at ht
      simp only [List.mem_cons, List.not_mem_nil, or_false] at ht
      rcases ht with h | h | h
      · cases h
      · cases h
        rfl
      · cases h
  | SHORT =>
    by_cases hc : min order.volume (gw.positions order.symbol) ≤ 0
    · rw [fill_order_rejects gw order p (Or.inr ⟨hd, hc⟩)] at ht
      simp at ht
    · rw [short_fill_accepts gw order p hd hc] at ht
      simp only [List.mem_cons, List.not_mem_nil, or_false] at ht
      rcases ht with h | h | h
      · cases h
      · cases h
        rfl
      · cases h

/-- Claim C3: a pending LONG limit order fills on a price event with
`market_price ≤ limit_price` (SHORT: `market_price ≥ limit_price`) at
exactly the limit price, never the market price; and the spec's scenario —
cash 100000, LONG LIMIT AAPL vol 10 at 140 submitted before any price,
followed by a BAR with close 135 — yields ORDER(SUBMITTING), then
ORDER(ALLTRADED, traded=10), a TRADE at price 140 volume 10,
positions[AAPL]=10 and cash 98600. -/
theorem limit_fill_at_limit_price :
    (∀ (gw : PaperGateway) (order : OrderData) (mp : ℚ),
        order.direction = Direction.LONG → mp ≤ order.price →
        ∀ t, PaperEvent.trade t ∈ (PaperGateway.try_fill_limit gw order mp).2 →
          t.price = order.price)
    ∧ (∀ (gw : PaperGateway) (order : OrderData) (mp : ℚ),
        order.direction = Direction.SHORT → order.price ≤ mp →
        ∀ t, PaperEvent.trade t ∈ (PaperGateway.try_fill_limit gw order mp).2 →
          t.price = order.price)
    ∧ (stepC3submit.2.1 = [PaperEvent.order ordC3]
        ∧ stepC3submit.2.2 = "AAPL.PAPER000001"
        ∧ stepC3bar.2 =
            [PaperEvent.order
               { ordC3 with
                   status := Status.ALLTRADED
                   traded := 10 },
             PaperEvent.trade tradeC3,
             PaperEvent.account 98600]
        ∧ stepC3bar.1.positions "AAPL" = 10
        ∧ stepC3bar.1.cash = 98600) := by
  have hbar : stepC3bar = PaperGateway.try_fill_limit gwC3barState ordC3 135 :=
    rfl
  have htry : PaperGateway.try_fill_limit gwC3barState ordC3 135
      = PaperGateway.fill_order gwC3popState ordC3 140 := by
    unfold PaperGateway.try_fill_limit
    rw [show ordC3.direction = Direction.LONG from rfl]
    dsimp only
    rw [show ordC3.price = (140:ℚ) from rfl,
      if_pos (by norm_num : (135:ℚ) ≤ 140)]
    rfl
  have hfill := long_fill_accepts gwC3popState ordC3 140 rfl
    (by
      rw [show gwC3popState.cash = (100000:ℚ) from rfl,
        show ordC3.volume = (10:ℚ) from rfl]
      norm_num)
  refine ⟨?_, ?_, rfl, rfl, ?_, ?_, ?_⟩
  · intro gw order mp hd hle t ht
    unfold PaperGateway.try_fill_limit at ht
    rw [hd] at ht
    dsimp only at ht
    rw [if_pos hle] at ht
    exact fill_trades_price _ order order.price t ht
  · intro gw order mp hd hle t ht
    unfold PaperGateway.try_fill_limit at ht
    rw [hd] at ht
    dsimp only at ht
    rw [if_pos hle] at ht
    exact fill_trades_price _ order order.price t ht
  · show stepC3bar.2 = _
    rw [hbar, htry, hfill]
    rw [show ordC3.volume = (10:ℚ) from rfl,
      show gwC3popState.cash = (100000:ℚ) from rfl]
    have hacct : (100000:ℚ) - 140 * 10 = 98600 := by norm_num
    rw [hacct]
    rfl
  · show stepC3bar.1.positions "AAPL" = 10
    rw [hbar, htry, hfill]
    show Function.update gwC3popState.positions ordC3.symbol
        (gwC3popState.positions ordC3.symbol + ordC3.volume) "AAPL" = 10
    rw [show "AAPL" = ordC3.symbol from rfl, Function.update_same,
      show gwC3popState.positions ordC3.symbol = (0:ℚ) from rfl,
      show ordC3.volume = (10:ℚ) from rfl]
    norm_num
  · show stepC3bar.1.cash = 98600
    rw [hbar, htry, hfill]
    show gwC3popState.cash - 140 * ordC3.volume = 98600
    rw [show gwC3popState.cash = (100000:ℚ) from rfl,
      show ordC3.volume = (10:ℚ) from rfl]
    norm_num

/-- Claim C3 witness: the LONG conjunct applied to the concrete pending
limit order at 140 against a market price of 135. -/
theorem limit_fill_at_limit_price_witness : tradeC3.price = ordC3.price := by
  have htryW : PaperGateway.try_fill_limit gwC3pending ordC3 135
      = PaperGateway.fill_order { gwC3pending with pending_orders := [] }
          ordC3 140 := by
    unfold PaperGateway.try_fill_limit
    rw [show ordC3.direction = Direction.LONG from rfl]
    dsimp only
    rw [show ordC3.price = (140:ℚ) from rfl,
      if_pos (by norm_num : (135:ℚ) ≤ 140)]
    rfl
  have hfillW := long_fill_accepts
    { gwC3pending with pending_orders := [] } ordC3 140 rfl
    (by
      rw [show ({ gwC3pending with pending_orders := [] }
            : PaperGateway).cash = (100000:ℚ) from rfl,
        show ordC3.volume = (10:ℚ) from rfl]
      norm_num)
  refine limit_fill_at_limit_price.1 gwC3pending ordC3 135 rfl
    (by
      rw [show ordC3.price = (140:ℚ) from rfl]
      norm_num)
    tradeC3 ?_
  rw [htryW, hfillW]
  exact List.mem_cons_of_mem _ (List.mem_cons_self _ _)

end Trading
